import Mathlib

/-!
Verification of the Coinflow cashbook reconciliation engine
(`src/context/CashbookContext.tsx`).

The embedding models the pure in-memory snapshot logic of the provider:
JS numbers are modelled as exact rationals (`ℚ`), ISO date strings as
`String` ordered lexicographically (JS default `sort()` on strings),
`Map<string,string>` caches as association lists, and the nondeterministic
`generateId` as an explicit stream `g : ℕ → String` with a threaded
counter.  Remote (Supabase) writes are fire-and-forget and do not touch
the local snapshot, so they are outside the state model.
-/

inductive TransactionType where
  | CASH_IN
  | CASH_OUT
deriving DecidableEq, Repr

structure Cashbook where
  id : String
  name : String
  balance : ℚ
  lastActivity : Option String
deriving DecidableEq, Repr

structure Transaction where
  id : String
  cashbookId : String
  type : TransactionType
  amount : ℚ
  description : String
  category : String
  mode : String
  date : String
deriving DecidableEq, Repr

structure Category where
  id : String
  name : String
deriving DecidableEq, Repr

structure PaymentMode where
  id : String
  name : String
deriving DecidableEq, Repr

structure TransactionInput where
  type : TransactionType
  amount : ℚ
  description : String
  category : String
  mode : String
  date : String
deriving DecidableEq, Repr

/-- Model of `TransactionUpdate`, the source's `Partial<TransactionInput>`
extended with an optional `cashbookId`: absent fields are `none`. -/
structure TransactionUpdate where
  type : Option TransactionType
  amount : Option ℚ
  description : Option String
  category : Option String
  mode : Option String
  date : Option String
  cashbookId : Option String
deriving DecidableEq, Repr

structure CashbookUpdate where
  name : Option String
deriving DecidableEq, Repr

/-- The four reactive collections held by the provider
(`cashbooks`, `transactions`, `categories`, `paymentModes` states). -/
structure AppState where
  cashbooks : List Cashbook
  transactions : List Transaction
  categories : List Category
  paymentModes : List PaymentMode
deriving DecidableEq, Repr

/-- The `PersistedState` shape as serialized to local storage (includes
`primaryCurrency`). -/
structure PersistedState where
  cashbooks : List Cashbook
  transactions : List Transaction
  categories : List Category
  paymentModes : List PaymentMode
  primaryCurrency : String
deriving DecidableEq, Repr

def DEFAULT_PRIMARY_CURRENCY : String := "USD"

/-- Code-unit lexicographic comparison of character lists, the order JS's
default `sort()` applies to strings. -/
def charsLe : List Char → List Char → Bool
  | [], _ => true
  | _ :: _, [] => false
  | a :: as, b :: bs =>
    if a.toNat < b.toNat then true
    else if b.toNat < a.toNat then false
    else charsLe as bs

/-- JS string comparison `a <= b`. -/
def strLe (a b : String) : Bool := charsLe a.data b.data

/-- The greater of two strings under the JS string order. -/
def maxStr (a b : String) : String := if strLe a b then b else a

/-- Executable model of `String.prototype.toLowerCase` (ASCII-faithful
per-character lowering). -/
def toLowerJS (s : String) : String := String.mk (s.data.map Char.toLower)

/-- Whitespace as trimmed by `String.prototype.trim` (the characters
relevant to this code base). -/
def isJsSpace (c : Char) : Bool :=
  decide (c = ' ') || decide (c = '\t') || decide (c = '\n') || decide (c = '\r')

/-- Executable model of `String.prototype.trim`: drop leading and trailing
whitespace. -/
def trimJS (s : String) : String :=
  String.mk (((s.data.dropWhile isJsSpace).reverse.dropWhile isJsSpace).reverse)

/-- Source `calculateBalance`: filter to the cashbook, then
`reduce((total, item) => total + (item.type === "CASH_IN" ? item.amount : -item.amount), 0)`. -/
def calculateBalance (cashbookId : String) (items : List Transaction) : ℚ :=
  (items.filter fun item => decide (item.cashbookId = cashbookId)).foldl
    (fun total item =>
      total + (if item.type = TransactionType.CASH_IN then item.amount else -item.amount)) 0

/-- The dates of a cashbook's transactions, in list order
(`items.filter(...).map(item => item.date)`). -/
def cashbookDates (cashbookId : String) (items : List Transaction) : List String :=
  (items.filter fun item => decide (item.cashbookId = cashbookId)).map Transaction.date

/-- The result of `.sort().pop()` on a list of strings: the lexicographic
maximum, or `none` on the empty list. -/
def latestDate : List String → Option String
  | [] => none
  | d :: ds =>
    match latestDate ds with
    | none => some d
    | some m => some (maxStr d m)

/-- Source `getLatestActivity`: the latest (lexicographically greatest) date of the
cashbook's transactions, `null` when it has none (`latest ?? null`). -/
def getLatestActivity (cashbookId : String) (items : List Transaction) : Option String :=
  latestDate (cashbookDates cashbookId items)

/-- Source `recalcCashbooks`: recompute every cashbook's derived fields from the
transaction list. -/
def recalcCashbooks (cashbooks : List Cashbook) (transactions : List Transaction) :
    List Cashbook :=
  cashbooks.map fun cashbook =>
    { cashbook with
      balance := calculateBalance cashbook.id transactions
      lastActivity := getLatestActivity cashbook.id transactions }

/-- The transaction built by `addTransaction`:
`{ id, cashbookId, ...input }`. -/
def inputToTransaction (id cashbookId : String) (input : TransactionInput) : Transaction :=
  { id := id
    cashbookId := cashbookId
    type := input.type
    amount := input.amount
    description := input.description
    category := input.category
    mode := input.mode
    date := input.date }

/-- Source `addTransaction`: append the new transaction
(`[...prev, transaction]`) and recalculate all cashbooks against the
updated list.  `newId` stands for the `generateId()` result.  The remote
write (and its exact-name category/mode lookup) does not touch the local
snapshot. -/
def addTransaction (newId cashbookId : String) (input : TransactionInput)
    (s : AppState) : AppState :=
  let updatedTransactions := s.transactions ++ [inputToTransaction newId cashbookId input]
  { s with
    transactions := updatedTransactions
    cashbooks := recalcCashbooks s.cashbooks updatedTransactions }

/-- The merge performed by `updateTransaction`:
`{...transaction, ...updates, cashbookId: updates.cashbookId ?? transaction.cashbookId}`. -/
def mergeTransaction (t : Transaction) (u : TransactionUpdate) : Transaction :=
  { id := t.id
    cashbookId := u.cashbookId.getD t.cashbookId
    type := u.type.getD t.type
    amount := u.amount.getD t.amount
    description := u.description.getD t.description
    category := u.category.getD t.category
    mode := u.mode.getD t.mode
    date := u.date.getD t.date }

/-- Source `updateTransaction`: map the merge over the matching transaction and
recalculate all cashbooks against the updated list. -/
def updateTransaction (id : String) (updates : TransactionUpdate) (s : AppState) : AppState :=
  let updatedTransactions :=
    s.transactions.map fun t => if t.id = id then mergeTransaction t updates else t
  { s with
    transactions := updatedTransactions
    cashbooks := recalcCashbooks s.cashbooks updatedTransactions }

/-- Source `deleteTransaction`: drop the matching transaction and recalculate. -/
def deleteTransaction (id : String) (s : AppState) : AppState :=
  let updatedTransactions := s.transactions.filter fun t => decide (t.id ≠ id)
  { s with
    transactions := updatedTransactions
    cashbooks := recalcCashbooks s.cashbooks updatedTransactions }

/-- Source `deleteCashbook`: drop the cashbook's transactions, drop the cashbook,
and recalculate the remaining cashbooks against the remaining
transactions. -/
def deleteCashbook (id : String) (s : AppState) : AppState :=
  let updatedTransactions := s.transactions.filter fun t => decide (t.cashbookId ≠ id)
  { s with
    transactions := updatedTransactions
    cashbooks :=
      recalcCashbooks (s.cashbooks.filter fun cb => decide (cb.id ≠ id)) updatedTransactions }

/-- Source `updateCashbook`: partial field update of the matching cashbook
(only `name` is a recognized field). -/
def updateCashbook (id : String) (updates : CashbookUpdate) (s : AppState) : AppState :=
  { s with
    cashbooks := s.cashbooks.map fun cb =>
      if cb.id = id then { cb with name := updates.name.getD cb.name } else cb }

/-- Source `removeCategory`: no-op when the id matches no category; otherwise drop
transactions referencing the category by name (recalculating cashbooks)
only when at least one such transaction exists, then drop the category. -/
def removeCategory (id : String) (s : AppState) : AppState :=
  match s.categories.find? fun c => decide (c.id = id) with
  | none => s
  | some category =>
    let related := s.transactions.filter fun t => decide (t.category = category.name)
    if related.length ≠ 0 then
      let updatedTransactions := s.transactions.filter fun t => decide (t.category ≠ category.name)
      { cashbooks := recalcCashbooks s.cashbooks updatedTransactions
        transactions := updatedTransactions
        categories := s.categories.filter fun c => decide (c.id ≠ id)
        paymentModes := s.paymentModes }
    else
      { s with categories := s.categories.filter fun c => decide (c.id ≠ id) }

/-- Source `removePaymentMode`: same cascade as `removeCategory`, keyed on the
payment-mode name. -/
def removePaymentMode (id : String) (s : AppState) : AppState :=
  match s.paymentModes.find? fun m => decide (m.id = id) with
  | none => s
  | some mode =>
    let related := s.transactions.filter fun t => decide (t.mode = mode.name)
    if related.length ≠ 0 then
      let updatedTransactions := s.transactions.filter fun t => decide (t.mode ≠ mode.name)
      { cashbooks := recalcCashbooks s.cashbooks updatedTransactions
        transactions := updatedTransactions
        categories := s.categories
        paymentModes := s.paymentModes.filter fun m => decide (m.id ≠ id) }
    else
      { s with paymentModes := s.paymentModes.filter fun m => decide (m.id ≠ id) }

/-- Source `addCategory`: trim the name; on an empty trim or a case-insensitive
name match leave the collection unchanged, otherwise append a fresh record.
The source function returns `undefined` (its type is `void`), which the
first component models: it is always `none`. -/
def addCategory (freshId name : String) (prev : List Category) :
    Option String × List Category :=
  let normalizedName := trimJS name
  if normalizedName = "" then (none, prev)
  else if prev.any fun c => decide (toLowerJS c.name = toLowerJS normalizedName) then (none, prev)
  else (none, prev ++ [{ id := freshId, name := normalizedName }])

/-- Source `addPaymentMode`: identical shape to `addCategory` over the
payment-mode collection; also returns `undefined` in the source. -/
def addPaymentMode (freshId name : String) (prev : List PaymentMode) :
    Option String × List PaymentMode :=
  let normalizedName := trimJS name
  if normalizedName = "" then (none, prev)
  else if prev.any fun m => decide (toLowerJS m.name = toLowerJS normalizedName) then (none, prev)
  else (none, prev ++ [{ id := freshId, name := normalizedName }])

/-- Source `handleSubmitTransaction` (create path) in `CashbookDetail.tsx`:
bail out when the cashbook is missing or the parsed amount is not
positive, otherwise call `addTransaction`.  The `Number(...)` parse of the
form field is abstracted: `form.amount` is already the parsed rational, so
`Number.isFinite` always holds. -/
def handleSubmitTransactionCreate (newId : String) (s : AppState) (cashbookId : String)
    (form : TransactionInput) : AppState :=
  match s.cashbooks.find? fun cb => decide (cb.id = cashbookId) with
  | none => s
  | some cashbook =>
    if form.amount ≤ 0 then s
    else addTransaction newId cashbook.id form s

/-- The mutation operations named by the balance-invariant property. -/
inductive Op where
  | addTx (newId cashbookId : String) (input : TransactionInput)
  | updateTx (id : String) (u : TransactionUpdate)
  | deleteTx (id : String)
  | deleteCb (id : String)
  | removeCat (id : String)
  | removeMode (id : String)

def applyOp : Op → AppState → AppState
  | Op.addTx newId cashbookId input, s => addTransaction newId cashbookId input s
  | Op.updateTx id u, s => updateTransaction id u s
  | Op.deleteTx id, s => deleteTransaction id s
  | Op.deleteCb id, s => deleteCashbook id s
  | Op.removeCat id, s => removeCategory id s
  | Op.removeMode id, s => removePaymentMode id s

def applyOps (ops : List Op) (s : AppState) : AppState :=
  ops.foldl (fun st op => applyOp op st) s

/-- The spec's balance formula: sum of CASH_IN amounts minus sum of
CASH_OUT amounts over the cashbook's transactions. -/
def specBalance (cashbookId : String) (ts : List Transaction) : ℚ :=
  ((ts.filter fun t =>
      decide (t.cashbookId = cashbookId ∧ t.type = TransactionType.CASH_IN)).map
    Transaction.amount).sum -
    ((ts.filter fun t =>
        decide (t.cashbookId = cashbookId ∧ t.type = TransactionType.CASH_OUT)).map
      Transaction.amount).sum

/-- The balance invariant of the spec. -/
def BalanceInv (s : AppState) : Prop :=
  ∀ cb ∈ s.cashbooks, cb.balance = specBalance cb.id s.transactions

/-- A snapshot whose derived fields agree with their recomputed values. -/
def Consistent (s : AppState) : Prop :=
  ∀ cb ∈ s.cashbooks,
    cb.balance = calculateBalance cb.id s.transactions ∧
    cb.lastActivity = getLatestActivity cb.id s.transactions

/-- One `UUID_REGEX` character class: one regex character class `[0-9a-f]` under the
`i` flag. -/
def isHexDigit (c : Char) : Bool :=
  (decide ('0' ≤ c) && decide (c ≤ '9')) ||
    (decide ('a' ≤ c) && decide (c ≤ 'f')) ||
    (decide ('A' ≤ c) && decide (c ≤ 'F'))

/-- Consume exactly `n` hex digits, returning the rest of the characters. -/
def hexRun : ℕ → List Char → Option (List Char)
  | 0, rest => some rest
  | n + 1, c :: rest => if isHexDigit c then hexRun n rest else none
  | _ + 1, [] => none

/-- Model of `UUID_REGEX.test`: `8-4-4-4-12` hex groups separated by hyphens,
case-insensitive, anchored at both ends. -/
def isUuid (s : String) : Bool :=
  match hexRun 8 s.data with
  | some ('-' :: r1) =>
    match hexRun 4 r1 with
    | some ('-' :: r2) =>
      match hexRun 4 r2 with
      | some ('-' :: r3) =>
        match hexRun 4 r3 with
        | some ('-' :: r4) =>
          match hexRun 12 r4 with
          | some [] => true
          | _ => false
        | _ => false
      | _ => false
    | _ => false
  | _ => false

/-- Association-list model of the `Map<string, string>` caches. -/
def lookupA (x : String) : List (String × String) → Option String
  | [] => none
  | p :: rest => if x = p.1 then some p.2 else lookupA x rest

/-- Source `ensureUuidWithCache`: keep canonical identifiers, reuse a cached
remap, otherwise generate a fresh id (`g k`) and record it.  Returns the
id, the updated cache, and the advanced generator counter. -/
def ensureUuidWithCache (g : ℕ → String) (value : String)
    (cache : List (String × String)) (k : ℕ) :
    String × List (String × String) × ℕ :=
  if isUuid value then (value, cache, k)
  else
    match lookupA value cache with
    | some v => (v, cache, k)
    | none => (g k, (value, g k) :: cache, k + 1)

/-- One `state.xs.map(x => ({...x, id: ensureUuidWithCache(x.id, map)}))`
pass, threading the cache and the generator counter.  Instantiated for
cashbooks, categories and payment modes. -/
def normRecords {α : Type} (getId : α → String) (setId : α → String → α) (g : ℕ → String) :
    List α → List (String × String) → ℕ → List α × List (String × String) × ℕ
  | [], cache, k => ([], cache, k)
  | a :: rest, cache, k =>
    let r := ensureUuidWithCache g (getId a) cache k
    let res := normRecords getId setId g rest r.2.1 r.2.2
    (setId a r.1 :: res.1, res.2.1, res.2.2)

/-- The `state.transactions.map(...)` pass: remap `cashbookId` through the
shared cashbook cache (`cashbookIdMap.get(...) ?? ...`, kept when already
canonical, otherwise remapped into the same cache) and remap the
transaction id through its own cache. -/
def normTransactions (g : ℕ → String) :
    List Transaction → List (String × String) → List (String × String) → ℕ →
      List Transaction × List (String × String) × List (String × String) × ℕ
  | [], cbCache, txCache, k => ([], cbCache, txCache, k)
  | t :: rest, cbCache, txCache, k =>
    let next := (lookupA t.cashbookId cbCache).getD t.cashbookId
    let cidRes := if isUuid next then (next, cbCache, k) else ensureUuidWithCache g next cbCache k
    let tidRes := ensureUuidWithCache g t.id txCache cidRes.2.2
    let res := normTransactions g rest cidRes.2.1 tidRes.2.1 tidRes.2.2
    ({ t with id := tidRes.1, cashbookId := cidRes.1 } :: res.1, res.2.1, res.2.2.1, res.2.2.2)

/-- Source `normalizeStateForPersistence`: four scope-local caches (cashbooks,
categories, payment modes, transaction ids), with transactions sharing the
cashbook cache for their `cashbookId`; `primaryCurrency || "USD"`. -/
def normalizeStateForPersistence (g : ℕ → String) (k0 : ℕ) (state : PersistedState) :
    PersistedState :=
  let cbRes := normRecords Cashbook.id (fun cb i => { cb with id := i }) g state.cashbooks [] k0
  let catRes := normRecords Category.id (fun c i => { c with id := i }) g state.categories []
    cbRes.2.2
  let modeRes := normRecords PaymentMode.id (fun m i => { m with id := i }) g state.paymentModes []
    catRes.2.2
  let txRes := normTransactions g state.transactions cbRes.2.1 [] modeRes.2.2
  { cashbooks := cbRes.1
    transactions := txRes.1
    categories := catRes.1
    paymentModes := modeRes.1
    primaryCurrency :=
      if state.primaryCurrency = "" then DEFAULT_PRIMARY_CURRENCY else state.primaryCurrency }

/-- All cache values are canonical identifiers. -/
def CacheGood (cache : List (String × String)) : Prop :=
  ∀ p ∈ cache, isUuid p.2 = true

/-- All cache keys are non-canonical source values. -/
def CacheKeys (cache : List (String × String)) : Prop :=
  ∀ p ∈ cache, isUuid p.1 = false

def uuidA : String := "11111111-1111-4111-8111-111111111111"

def uuidB : String := "22222222-2222-4222-8222-222222222222"

def c1Input : TransactionInput :=
  { type := TransactionType.CASH_IN, amount := 5, description := "pay",
    category := "Salary", mode := "Cash", date := "2024-01-01T00:00:00Z" }

def c1S0 : AppState :=
  { cashbooks := [{ id := "cb-1", name := "Personal", balance := 0, lastActivity := none }],
    transactions := [], categories := [], paymentModes := [] }

def c1Ops : List Op :=
  [Op.addTx "t-1" "cb-1" c1Input,
   Op.updateTx "t-1" { type := none, amount := some 7, description := none, category := none,
                       mode := none, date := none, cashbookId := none },
   Op.deleteTx "t-9"]

def c3Input : TransactionInput :=
  { type := TransactionType.CASH_IN, amount := 3, description := "snack",
    category := "Snacks", mode := "Barter", date := "2024-02-01T00:00:00Z" }

def c3S : AppState :=
  { cashbooks := [{ id := "cb-1", name := "Personal", balance := 0, lastActivity := none }],
    transactions := [], categories := [], paymentModes := [] }

def c4BadInput : TransactionInput :=
  { type := TransactionType.CASH_OUT, amount := 0, description := "zero",
    category := "Rent", mode := "Cash", date := "2024-02-02T00:00:00Z" }

def c4S : AppState :=
  { cashbooks := [{ id := "cb-1", name := "Personal", balance := 0, lastActivity := none }],
    transactions := [], categories := [], paymentModes := [] }

def c5Ts : List Transaction :=
  [{ id := "t-1", cashbookId := "cb-1", type := TransactionType.CASH_IN, amount := 5,
     description := "pay", category := "Salary", mode := "Cash",
     date := "2024-01-02T00:00:00Z" }]

def c5Cbs : List Cashbook :=
  [{ id := "cb-1", name := "Personal", balance := 0, lastActivity := none }]

def c5Out : Cashbook :=
  { id := "cb-1", name := "Personal", balance := 5,
    lastActivity := some "2024-01-02T00:00:00Z" }

def c6Cats : List Category := [{ id := "cat-1", name := "Cash" }]

def c6Modes : List PaymentMode := [{ id := "mode-1", name := "Cash" }]

def c7Tx : Transaction :=
  { id := "t-1", cashbookId := "cb-1", type := TransactionType.CASH_IN, amount := 4,
    description := "pay", category := "Salary", mode := "Cash",
    date := "2024-03-01T00:00:00Z" }

def c7S : AppState :=
  { cashbooks :=
      [{ id := "cb-1", name := "Personal", balance := 4,
         lastActivity := some "2024-03-01T00:00:00Z" },
       { id := "cb-2", name := "Business", balance := 0, lastActivity := none }],
    transactions := [c7Tx], categories := [{ id := "cat-1", name := "Salary" }],
    paymentModes := [{ id := "mode-1", name := "Cash" }] }

def c8G : ℕ → String := fun k => if k = 0 then uuidA else uuidB

def c8DupPS : PersistedState :=
  { cashbooks := [{ id := "dup", name := "Book", balance := 0, lastActivity := none }],
    transactions := [], categories := [{ id := "dup", name := "Cat" }],
    paymentModes := [], primaryCurrency := "USD" }

def c8WTx : Transaction :=
  { id := uuidB, cashbookId := "legacy-1", type := TransactionType.CASH_IN, amount := 2,
    description := "pay", category := "Salary", mode := "Cash",
    date := "2024-04-01T00:00:00Z" }

def c8WPS : PersistedState :=
  { cashbooks := [{ id := "legacy-1", name := "Personal", balance := 2,
                    lastActivity := some "2024-04-01T00:00:00Z" }],
    transactions := [c8WTx], categories := [], paymentModes := [],
    primaryCurrency := "USD" }

def c9Ghost : Transaction :=
  { id := "t-1", cashbookId := "ghost", type := TransactionType.CASH_IN, amount := 5,
    description := "dangling", category := "Salary", mode := "Cash",
    date := "2024-05-01T00:00:00Z" }

def c9S : AppState :=
  { cashbooks := [], transactions := [c9Ghost], categories := [], paymentModes := [] }

def c9NoUpdate : TransactionUpdate :=
  { type := none, amount := some 9, description := none, category := none, mode := none,
    date := none, cashbookId := none }

def c9W : AppState :=
  { cashbooks := [{ id := "cb-1", name := "Personal", balance := 4,
                    lastActivity := some "2024-03-01T00:00:00Z" }],
    transactions := [c7Tx], categories := [{ id := "cat-1", name := "Salary" }],
    paymentModes := [{ id := "mode-1", name := "Cash" }] }

def c10G : ℕ → String := fun _ => uuidA

def c10PS : PersistedState :=
  { cashbooks := [{ id := "legacy-1", name := "Personal", balance := 0, lastActivity := none }],
    transactions := [], categories := [], paymentModes := [], primaryCurrency := "" }

/-! ## Theorems -/

theorem foldl_add_eq_sum (f : Transaction → ℚ) (l : List Transaction) :
    ∀ a : ℚ, l.foldl (fun total t => total + f t) a = a + (l.map f).sum := by
  induction l with
  | nil => intro a; simp
  | cons t l ih => intro a; simp [List.foldl_cons, ih, add_assoc]

theorem calculateBalance_eq_sum (cid : String) (ts : List Transaction) :
    calculateBalance cid ts =
      ((ts.filter fun t => decide (t.cashbookId = cid)).map
        (fun t => if t.type = TransactionType.CASH_IN then t.amount else -t.amount)).sum := by
  unfold calculateBalance
  rw [foldl_add_eq_sum]
  simp

theorem calculateBalance_eq_spec (cid : String) (ts : List Transaction) :
    calculateBalance cid ts = specBalance cid ts := by
  rw [calculateBalance_eq_sum]
  unfold specBalance
  induction ts with
  | nil => simp
  | cons t ts ih =>
    by_cases h1 : t.cashbookId = cid
    · cases h2 : t.type with
      | CASH_IN =>
        simp only [List.filter_cons, List.map_cons, List.sum_cons, h1, h2]
        simp only [eq_self_iff_true, true_and, and_true, and_false, decide_True, decide_False,
          if_true, if_false, List.map_cons, List.sum_cons]
        rw [ih]
        simp [h2]
        ring
      | CASH_OUT =>
        simp only [List.filter_cons, List.map_cons, List.sum_cons, h1, h2]
        simp only [eq_self_iff_true, true_and, and_true, and_false, decide_True, decide_False,
          if_true, if_false, List.map_cons, List.sum_cons]
        rw [ih]
        simp [h2]
        ring
    · simp only [List.filter_cons, h1, false_and, and_false, decide_False, if_false]
      exact ih

theorem mem_recalc {cbs : List Cashbook} {ts : List Transaction} {cb : Cashbook}
    (h : cb ∈ recalcCashbooks cbs ts) :
    ∃ cb₀ ∈ cbs,
      cb = { cb₀ with
              balance := calculateBalance cb₀.id ts
              lastActivity := getLatestActivity cb₀.id ts } := by
  unfold recalcCashbooks at h
  rcases List.mem_map.mp h with ⟨cb₀, h0, rfl⟩
  exact ⟨cb₀, h0, rfl⟩

theorem recalc_balance {cbs : List Cashbook} {ts : List Transaction} :
    ∀ cb ∈ recalcCashbooks cbs ts, cb.balance = specBalance cb.id ts := by
  intro cb h
  rcases mem_recalc h with ⟨cb₀, _, rfl⟩
  exact calculateBalance_eq_spec cb₀.id ts

theorem applyOp_balanceInv (op : Op) (s : AppState) (h : BalanceInv s) :
    BalanceInv (applyOp op s) := by
  cases op with
  | addTx newId cashbookId input =>
    intro cb hcb
    exact recalc_balance cb hcb
  | updateTx id u =>
    intro cb hcb
    exact recalc_balance cb hcb
  | deleteTx id =>
    intro cb hcb
    exact recalc_balance cb hcb
  | deleteCb id =>
    intro cb hcb
    exact recalc_balance cb hcb
  | removeCat id =>
    show BalanceInv (removeCategory id s)
    simp only [removeCategory]
    split
    · exact h
    · split
      · intro cb hcb
        exact recalc_balance cb hcb
      · exact h
  | removeMode id =>
    show BalanceInv (removePaymentMode id s)
    simp only [removePaymentMode]
    split
    · exact h
    · split
      · intro cb hcb
        exact recalc_balance cb hcb
      · exact h

/-- C1.  Balance invariant: starting from any snapshot satisfying the
balance invariant (in particular the empty initial snapshot), every
snapshot reachable by a sequence of the mutation operations
`addTransaction`, `updateTransaction`, `deleteTransaction`,
`deleteCashbook`, `removeCategory`, `removePaymentMode` satisfies
`cb.balance = specBalance cb.id transactions` for every cashbook. -/
theorem C1_balance_invariant (ops : List Op) (s : AppState) (h : BalanceInv s) :
    BalanceInv (applyOps ops s) := by
  induction ops generalizing s with
  | nil => exact h
  | cons op ops ih => exact ih (applyOp op s) (applyOp_balanceInv op s h)

theorem c1S0_balanceInv : BalanceInv c1S0 := by
  intro cb hcb
  simp only [c1S0, List.mem_singleton] at hcb
  subst hcb
  simp [specBalance, c1S0]

/-- Witness for C1 at a concrete snapshot and operation sequence. -/
theorem C1_balance_invariant_witness :
    BalanceInv c1S0 ∧ BalanceInv (applyOps c1Ops c1S0) :=
  ⟨c1S0_balanceInv, C1_balance_invariant c1Ops c1S0 c1S0_balanceInv⟩

/-- C2.  Recompute is idempotent:
`recalcCashbooks (recalcCashbooks cb t) t = recalcCashbooks cb t`. -/
theorem C2_recalc_idempotent (cashbooks : List Cashbook) (transactions : List Transaction) :
    recalcCashbooks (recalcCashbooks cashbooks transactions) transactions =
      recalcCashbooks cashbooks transactions := by
  induction cashbooks with
  | nil => rfl
  | cons cb cbs ih =>
    unfold recalcCashbooks at ih ⊢
    simp only [List.map_cons, List.cons.injEq]
    exact ⟨trivial, ih⟩

theorem charsLe_refl : ∀ cs : List Char, charsLe cs cs = true := by
  intro cs
  induction cs with
  | nil => rfl
  | cons c cs ih =>
    unfold charsLe
    rw [if_neg (Nat.lt_irrefl _), if_neg (Nat.lt_irrefl _)]
    exact ih

theorem charsLe_total : ∀ as bs : List Char, charsLe as bs = true ∨ charsLe bs as = true := by
  intro as
  induction as with
  | nil => intro bs; left; rfl
  | cons a as ih =>
    intro bs
    cases bs with
    | nil => right; rfl
    | cons b bs =>
      simp only [charsLe]
      rcases Nat.lt_trichotomy a.toNat b.toNat with h | h | h
      · have h2 : ¬b.toNat < a.toNat := by omega
        simp [h, h2]
      · have h1 : ¬a.toNat < b.toNat := by omega
        have h2 : ¬b.toNat < a.toNat := by omega
        simp only [h1, h2, if_false]
        exact ih bs
      · have h1 : ¬a.toNat < b.toNat := by omega
        simp [h, h1]

theorem charsLe_trans :
    ∀ {as bs cs : List Char},
      charsLe as bs = true → charsLe bs cs = true → charsLe as cs = true := by
  intro as
  induction as with
  | nil => intro bs cs _ _; rfl
  | cons a as ih =>
    intro bs cs h1 h2
    cases bs with
    | nil => simp [charsLe] at h1
    | cons b bs =>
      cases cs with
      | nil => simp [charsLe] at h2
      | cons c cs =>
        simp only [charsLe] at h1 h2 ⊢
        by_cases hab : a.toNat < b.toNat
        · by_cases hbc : b.toNat < c.toNat
          · simp [show a.toNat < c.toNat by omega]
          · by_cases hcb : c.toNat < b.toNat
            · rw [if_neg hbc, if_pos hcb] at h2
              exact absurd h2 (by simp)
            · simp [show a.toNat < c.toNat by omega]
        · by_cases hba : b.toNat < a.toNat
          · rw [if_neg hab, if_pos hba] at h1
            exact absurd h1 (by simp)
          · by_cases hbc : b.toNat < c.toNat
            · simp [show a.toNat < c.toNat by omega]
            · by_cases hcb : c.toNat < b.toNat
              · rw [if_neg hbc, if_pos hcb] at h2
                exact absurd h2 (by simp)
              · rw [if_neg hab, if_neg hba] at h1
                rw [if_neg hbc, if_neg hcb] at h2
                have hac : ¬a.toNat < c.toNat := by omega
                have hca : ¬c.toNat < a.toNat := by omega
                rw [if_neg hac, if_neg hca]
                exact ih h1 h2

theorem strLe_refl (a : String) : strLe a a = true := charsLe_refl a.data

theorem strLe_total (a b : String) : strLe a b = true ∨ strLe b a = true :=
  charsLe_total a.data b.data

theorem strLe_trans {a b c : String} (h1 : strLe a b = true) (h2 : strLe b c = true) :
    strLe a c = true := charsLe_trans h1 h2

theorem strLe_maxStr_left (d m : String) : strLe d (maxStr d m) = true := by
  unfold maxStr
  by_cases h : strLe d m = true
  · simp [h]
  · simp [h, strLe_refl]

theorem strLe_maxStr_right (d m : String) : strLe m (maxStr d m) = true := by
  unfold maxStr
  by_cases h : strLe d m = true
  · simp [h, strLe_refl]
  · rcases strLe_total d m with h' | h'
    · exact absurd h' h
    · simp [h, h']

theorem maxStr_choice (d m : String) : maxStr d m = d ∨ maxStr d m = m := by
  unfold maxStr
  by_cases h : strLe d m = true
  · right; simp [h]
  · left; simp [h]

theorem latestDate_eq_none {l : List String} : latestDate l = none ↔ l = [] := by
  cases l with
  | nil => simp [latestDate]
  | cons d ds =>
    cases hd : latestDate ds <;> simp [latestDate, hd]

theorem latestDate_mem : ∀ {l : List String} {m : String}, latestDate l = some m → m ∈ l := by
  intro l
  induction l with
  | nil => intro m h; simp [latestDate] at h
  | cons d ds ih =>
    intro m h
    unfold latestDate at h
    cases hd : latestDate ds with
    | none =>
      rw [hd] at h
      simp at h
      simp [h]
    | some a =>
      rw [hd] at h
      simp at h
      rcases maxStr_choice d a with hmax | hmax <;> rw [hmax] at h
      · simp [h]
      · exact List.mem_cons_of_mem d (h ▸ ih hd)

theorem latestDate_le :
    ∀ {l : List String} {m : String}, latestDate l = some m → ∀ d ∈ l, strLe d m = true := by
  intro l
  induction l with
  | nil => intro m _ d hd; simp at hd
  | cons d ds ih =>
    intro m h e he
    unfold latestDate at h
    cases hd : latestDate ds with
    | none =>
      rw [hd] at h
      simp at h
      have : ds = [] := latestDate_eq_none.mp hd
      subst this
      simp at he
      subst he
      rw [← h]
      exact strLe_refl e
    | some a =>
      rw [hd] at h
      simp at h
      subst h
      rcases List.mem_cons.mp he with rfl | hin
      · exact strLe_maxStr_left e a
      · exact strLe_trans (ih hd e hin) (strLe_maxStr_right d a)

theorem latestDate_isSome {l : List String} (h : l ≠ []) : ∃ m, latestDate l = some m := by
  cases hl : latestDate l with
  | none => exact absurd (latestDate_eq_none.mp hl) h
  | some m => exact ⟨m, rfl⟩

/-- C5.  After `recalcCashbooks`, a cashbook with no transactions has
`lastActivity = none`, and a cashbook with at least one transaction has
`lastActivity = some m` where `m` is the maximum transaction date. -/
theorem C5_last_activity (cashbooks : List Cashbook) (transactions : List Transaction)
    (cb : Cashbook) (hmem : cb ∈ recalcCashbooks cashbooks transactions) :
    (cashbookDates cb.id transactions = [] → cb.lastActivity = none) ∧
    (cashbookDates cb.id transactions ≠ [] →
      ∃ m, cb.lastActivity = some m ∧ m ∈ cashbookDates cb.id transactions ∧
        ∀ d ∈ cashbookDates cb.id transactions, strLe d m = true) := by
  rcases mem_recalc hmem with ⟨cb₀, _, rfl⟩
  constructor
  · intro hnil
    show getLatestActivity cb₀.id transactions = none
    unfold getLatestActivity
    rw [show cashbookDates ({ cb₀ with
          balance := calculateBalance cb₀.id transactions
          lastActivity := getLatestActivity cb₀.id transactions } : Cashbook).id transactions =
        cashbookDates cb₀.id transactions from rfl] at hnil
    rw [hnil]
    rfl
  · intro hne
    have hne' : cashbookDates cb₀.id transactions ≠ [] := hne
    obtain ⟨m, hm⟩ := latestDate_isSome hne'
    exact ⟨m, hm, latestDate_mem hm, latestDate_le hm⟩

theorem map_eq_self_of {α : Type} {f : α → α} :
    ∀ {l : List α}, (∀ a ∈ l, f a = a) → l.map f = l := by
  intro l
  induction l with
  | nil => intro _; rfl
  | cons a l ih =>
    intro h
    simp only [List.map_cons]
    rw [h a (List.mem_cons_self a l), ih fun b hb => h b (List.mem_cons_of_mem a hb)]

theorem filter_eq_self_of {α : Type} {p : α → Bool} :
    ∀ {l : List α}, (∀ a ∈ l, p a = true) → l.filter p = l := by
  intro l
  induction l with
  | nil => intro _; rfl
  | cons a l ih =>
    intro h
    rw [List.filter_cons, if_pos (h a (List.mem_cons_self a l)),
      ih fun b hb => h b (List.mem_cons_of_mem a hb)]

theorem recalc_eq_self {cbs : List Cashbook} {ts : List Transaction}
    (h : ∀ cb ∈ cbs,
      cb.balance = calculateBalance cb.id ts ∧
      cb.lastActivity = getLatestActivity cb.id ts) :
    recalcCashbooks cbs ts = cbs := by
  unfold recalcCashbooks
  apply map_eq_self_of
  intro cb hcb
  rw [← (h cb hcb).1, ← (h cb hcb).2]

theorem filter_cashbook_of_filter_ne {cid x : String} (h : cid ≠ x) (ts : List Transaction) :
    ((ts.filter fun t => decide (t.cashbookId ≠ x)).filter fun t => decide (t.cashbookId = cid)) =
      ts.filter fun t => decide (t.cashbookId = cid) := by
  rw [List.filter_filter]
  apply List.filter_congr
  intro t _
  by_cases hc : t.cashbookId = cid
  · simp [hc, h]
  · simp [hc]

theorem calculateBalance_filter_ne {cid x : String} (h : cid ≠ x) (ts : List Transaction) :
    calculateBalance cid (ts.filter fun t => decide (t.cashbookId ≠ x)) =
      calculateBalance cid ts := by
  unfold calculateBalance
  rw [filter_cashbook_of_filter_ne h]

theorem getLatestActivity_filter_ne {cid x : String} (h : cid ≠ x) (ts : List Transaction) :
    getLatestActivity cid (ts.filter fun t => decide (t.cashbookId ≠ x)) =
      getLatestActivity cid ts := by
  unfold getLatestActivity cashbookDates
  rw [filter_cashbook_of_filter_ne h]

theorem length_filter_ne_add_eq (x : String) (ts : List Transaction) :
    (ts.filter fun t => decide (t.cashbookId ≠ x)).length +
      (ts.filter fun t => decide (t.cashbookId = x)).length = ts.length := by
  have hcongr : (ts.filter fun t => !decide (t.cashbookId ≠ x)) =
      ts.filter fun t => decide (t.cashbookId = x) := by
    apply List.filter_congr
    intro t _
    by_cases htx : t.cashbookId = x
    · simp [htx]
    · simp [htx]
  have hlen :=
    @List.length_eq_length_filter_add Transaction ts fun t => decide (t.cashbookId ≠ x)
  rw [hcongr] at hlen
  omega

/-- C7.  On a snapshot whose derived fields are consistent (every snapshot
the provider publishes, by C1), `deleteCashbook x` removes exactly the
cashbook(s) with id `x` and exactly its transactions — every transaction
of another cashbook survives, categories and payment modes are untouched,
and every remaining cashbook (balance and lastActivity included) is
unchanged; the number of removed transactions is the number that
referenced `x`. -/
theorem C7_delete_cashbook_cascade (s : AppState) (x : String) (hcons : Consistent s) :
    deleteCashbook x s =
      { cashbooks := s.cashbooks.filter fun cb => decide (cb.id ≠ x)
        transactions := s.transactions.filter fun t => decide (t.cashbookId ≠ x)
        categories := s.categories
        paymentModes := s.paymentModes } ∧
    (deleteCashbook x s).transactions.length +
        (s.transactions.filter fun t => decide (t.cashbookId = x)).length =
      s.transactions.length := by
  have hmain : deleteCashbook x s =
      { cashbooks := s.cashbooks.filter fun cb => decide (cb.id ≠ x)
        transactions := s.transactions.filter fun t => decide (t.cashbookId ≠ x)
        categories := s.categories
        paymentModes := s.paymentModes } := by
    simp only [deleteCashbook, AppState.mk.injEq]
    refine ⟨?_, by trivial, by trivial, by trivial⟩
    apply recalc_eq_self
    intro cb hcb
    have hm := List.mem_filter.mp hcb
    have hne : cb.id ≠ x := by simpa using hm.2
    obtain ⟨hb, hl⟩ := hcons cb hm.1
    constructor
    · rw [calculateBalance_filter_ne hne]
      exact hb
    · rw [getLatestActivity_filter_ne hne]
      exact hl
  refine ⟨hmain, ?_⟩
  rw [hmain]
  exact length_filter_ne_add_eq x s.transactions

theorem c7S_consistent : Consistent c7S := by
  intro cb hcb
  simp only [c7S, List.mem_cons, List.not_mem_nil, or_false] at hcb
  rcases hcb with rfl | rfl
  · constructor
    · simp [calculateBalance, c7S, c7Tx, List.filter, List.foldl]
    · simp [getLatestActivity, cashbookDates, c7S, c7Tx, List.filter, latestDate]
  · constructor
    · simp [calculateBalance, c7S, c7Tx, List.filter, List.foldl]
    · simp [getLatestActivity, cashbookDates, c7S, c7Tx, List.filter, latestDate]

/-- Witness for C7 at a concrete consistent snapshot. -/
theorem C7_delete_cashbook_cascade_witness :
    deleteCashbook "cb-1" c7S =
      { cashbooks := c7S.cashbooks.filter fun cb => decide (cb.id ≠ "cb-1")
        transactions := c7S.transactions.filter fun t => decide (t.cashbookId ≠ "cb-1")
        categories := c7S.categories
        paymentModes := c7S.paymentModes } ∧
    (deleteCashbook "cb-1" c7S).transactions.length +
        (c7S.transactions.filter fun t => decide (t.cashbookId = "cb-1")).length =
      c7S.transactions.length :=
  C7_delete_cashbook_cascade c7S "cb-1" c7S_consistent

/-- Counterexample for C9: in a consistent snapshot holding one dangling
transaction whose `cashbookId` is `"ghost"`, the id `"ghost"` matches no
record in any of the four collections, yet `deleteCashbook "ghost"`
deletes that transaction — the snapshot is not left unchanged. -/
theorem C9_counterexample :
    Consistent c9S ∧
    (∀ cb ∈ c9S.cashbooks, cb.id ≠ "ghost") ∧
    (∀ t ∈ c9S.transactions, t.id ≠ "ghost") ∧
    (∀ c ∈ c9S.categories, c.id ≠ "ghost") ∧
    (∀ m ∈ c9S.paymentModes, m.id ≠ "ghost") ∧
    deleteCashbook "ghost" c9S ≠ c9S := by
  refine ⟨?_, by decide, by decide, by decide, by decide, ?_⟩
  · intro cb hcb
    simp [c9S] at hcb
  · intro h
    have hlen := congrArg (fun st => st.transactions.length) h
    simp [deleteCashbook, c9S, c9Ghost] at hlen

/-- C9 (amended).  On a consistent snapshot, for an id `x` matching no
record in any collection and referenced by no transaction's `cashbookId`,
all six operations are total no-ops: each returns the snapshot unchanged
(none throws a NotFoundError). -/
theorem C9_missing_id_noop (s : AppState) (x : String) (u : CashbookUpdate)
    (v : TransactionUpdate) (hcons : Consistent s)
    (hcb : ∀ cb ∈ s.cashbooks, cb.id ≠ x)
    (ht : ∀ t ∈ s.transactions, t.id ≠ x)
    (hcat : ∀ c ∈ s.categories, c.id ≠ x)
    (hmode : ∀ m ∈ s.paymentModes, m.id ≠ x)
    (href : ∀ t ∈ s.transactions, t.cashbookId ≠ x) :
    updateCashbook x u s = s ∧ deleteCashbook x s = s ∧ updateTransaction x v s = s ∧
    deleteTransaction x s = s ∧ removeCategory x s = s ∧ removePaymentMode x s = s := by
  have hrecalc : recalcCashbooks s.cashbooks s.transactions = s.cashbooks :=
    recalc_eq_self hcons
  have hTid : (s.transactions.filter fun t => decide (t.id ≠ x)) = s.transactions :=
    filter_eq_self_of fun t hm => by simp [ht t hm]
  have hTref : (s.transactions.filter fun t => decide (t.cashbookId ≠ x)) = s.transactions :=
    filter_eq_self_of fun t hm => by simp [href t hm]
  have hCb : (s.cashbooks.filter fun cb => decide (cb.id ≠ x)) = s.cashbooks :=
    filter_eq_self_of fun cb hm => by simp [hcb cb hm]
  refine ⟨?_, ?_, ?_, ?_, ?_, ?_⟩
  · unfold updateCashbook
    rw [map_eq_self_of fun cb hm => if_neg (hcb cb hm)]
  · simp only [deleteCashbook]
    rw [hTref, hCb, hrecalc]
  · simp only [updateTransaction]
    rw [map_eq_self_of fun t hm => if_neg (ht t hm), hrecalc]
  · simp only [deleteTransaction]
    rw [hTid, hrecalc]
  · simp only [removeCategory]
    rw [List.find?_eq_none.mpr fun c hm => by simp [hcat c hm]]
  · simp only [removePaymentMode]
    rw [List.find?_eq_none.mpr fun m hm => by simp [hmode m hm]]

theorem c9W_consistent : Consistent c9W := by
  intro cb hcb
  simp only [c9W, List.mem_cons, List.not_mem_nil, or_false] at hcb
  subst hcb
  constructor
  · simp [calculateBalance, c9W, c7Tx, List.filter, List.foldl]
  · simp [getLatestActivity, cashbookDates, c9W, c7Tx, List.filter, latestDate]

/-- Witness for C9 (amended) at a concrete consistent snapshot and a
concrete missing id. -/
theorem C9_missing_id_noop_witness :
    updateCashbook "missing" { name := none } c9W = c9W ∧
    deleteCashbook "missing" c9W = c9W ∧
    updateTransaction "missing" c9NoUpdate c9W = c9W ∧
    deleteTransaction "missing" c9W = c9W ∧
    removeCategory "missing" c9W = c9W ∧
    removePaymentMode "missing" c9W = c9W :=
  C9_missing_id_noop c9W "missing" { name := none } c9NoUpdate c9W_consistent
    (by decide) (by decide) (by decide) (by decide) (by decide)

theorem c5_recalc_eval : recalcCashbooks c5Cbs c5Ts = [c5Out] := by
  simp [recalcCashbooks, c5Cbs, c5Ts, c5Out, calculateBalance, getLatestActivity,
    cashbookDates, latestDate, List.foldl, List.filter]

/-- Counterexample for C3: with an empty category and payment-mode set and
`input.category = "Snacks"` (so no existing record matches after trimming
and case-insensitive comparison), `addTransaction` creates no category and
no payment-mode record, and the stored transaction carries the raw strings
`"Snacks"` and `"Barter"` rather than any resolved identifier. -/
theorem C3_counterexample :
    (addTransaction "t-1" "cb-1" c3Input c3S).categories = [] ∧
    (addTransaction "t-1" "cb-1" c3Input c3S).paymentModes = [] ∧
    (addTransaction "t-1" "cb-1" c3Input c3S).transactions.map Transaction.category =
      ["Snacks"] ∧
    (addTransaction "t-1" "cb-1" c3Input c3S).transactions.map Transaction.mode =
      ["Barter"] :=
  ⟨rfl, rfl, rfl, rfl⟩

/-- C3 (amended).  `addTransaction` performs no category or payment-mode
resolution at all: it leaves both collections unchanged and appends a
transaction storing the raw input strings `input.category` and
`input.mode`. -/
theorem C3_no_resolution (newId cashbookId : String) (input : TransactionInput)
    (s : AppState) :
    (addTransaction newId cashbookId input s).categories = s.categories ∧
    (addTransaction newId cashbookId input s).paymentModes = s.paymentModes ∧
    (addTransaction newId cashbookId input s).transactions =
      s.transactions ++ [inputToTransaction newId cashbookId input] :=
  ⟨rfl, rfl, rfl⟩

/-- Counterexample for C4: `addTransaction` itself performs no amount
validation — called with `amount = 0` it still inserts the transaction and
mutates the snapshot. -/
theorem C4_counterexample :
    c4BadInput.amount ≤ 0 ∧
    (addTransaction "t-1" "cb-1" c4BadInput c4S).transactions ≠ c4S.transactions := by
  constructor
  · simp [c4BadInput]
  · intro h
    have := congrArg List.length h
    simp [addTransaction, c4S] at this

/-- C4 (amended).  The non-positive-amount guard lives in the page submit
handler, not in `addTransaction`: when the parsed amount is `≤ 0` the
handler returns before calling `addTransaction`, leaving the snapshot
entirely unchanged. -/
theorem C4_submit_guard (newId : String) (s : AppState) (cashbookId : String)
    (form : TransactionInput) (h : form.amount ≤ 0) :
    handleSubmitTransactionCreate newId s cashbookId form = s := by
  unfold handleSubmitTransactionCreate
  cases hfind : s.cashbooks.find? fun cb => decide (cb.id = cashbookId) with
  | none => rfl
  | some cashbook => simp [h]

/-- Witness for C4 (amended) at a concrete non-positive submission. -/
theorem C4_submit_guard_witness :
    handleSubmitTransactionCreate "t-1" c4S "cb-1" c4BadInput = c4S :=
  C4_submit_guard "t-1" c4S "cb-1" c4BadInput (by simp [c4BadInput])

/-- Counterexample for C6: `addCategory` has no return value (`void` in the
source, the first component of the embedding), so calling it with `"cash"`
against an existing `"Cash"` record does not return the existing
identifier `"cat-1"` — it returns nothing, although the collection is
indeed left unchanged. -/
theorem C6_counterexample :
    (toLowerJS "Cash" = toLowerJS (trimJS "cash")) ∧
    (addCategory "fresh-cat" "cash" c6Cats).1 = none ∧
    (addCategory "fresh-cat" "cash" c6Cats).1 ≠ some "cat-1" ∧
    (addCategory "fresh-cat" "cash" c6Cats).2 = c6Cats := by
  refine ⟨rfl, rfl, ?_, rfl⟩
  rw [show (addCategory "fresh-cat" "cash" c6Cats).1 = none from rfl]
  simp

/-- C6 (amended).  `addCategory` and `addPaymentMode` return no identifier;
when the trimmed input name matches an existing record's name
case-insensitively, the collection is left entirely unchanged (no record
is added and every existing identifier, including the matching record's,
is preserved). -/
theorem C6_no_duplicates (freshCatId freshModeId catName modeName : String)
    (cats : List Category) (modes : List PaymentMode)
    (hcat : ∃ c ∈ cats, toLowerJS c.name = toLowerJS (trimJS catName))
    (hmode : ∃ m ∈ modes, toLowerJS m.name = toLowerJS (trimJS modeName)) :
    addCategory freshCatId catName cats = (none, cats) ∧
    addPaymentMode freshModeId modeName modes = (none, modes) := by
  constructor
  · simp only [addCategory]
    by_cases h0 : trimJS catName = ""
    · simp [h0]
    · rw [if_neg h0]
      rcases hcat with ⟨c, hc, he⟩
      have hany : (cats.any fun c => decide (toLowerJS c.name = toLowerJS (trimJS catName)))
          = true :=
        List.any_eq_true.mpr ⟨c, hc, by simp [he]⟩
      simp [hany]
  · simp only [addPaymentMode]
    by_cases h0 : trimJS modeName = ""
    · simp [h0]
    · rw [if_neg h0]
      rcases hmode with ⟨m, hm, he⟩
      have hany : (modes.any fun m => decide (toLowerJS m.name = toLowerJS (trimJS modeName)))
          = true :=
        List.any_eq_true.mpr ⟨m, hm, by simp [he]⟩
      simp [hany]

/-- Witness for C6 (amended): resolving `"cash"` against `"Cash"` and
`" CASH "` against `"Cash"` changes nothing, so both resolutions leave the
same record with the same identifier. -/
theorem C6_no_duplicates_witness :
    addCategory "fresh-cat" "cash" c6Cats = (none, c6Cats) ∧
    addPaymentMode "fresh-mode" " CASH " c6Modes = (none, c6Modes) :=
  C6_no_duplicates "fresh-cat" "fresh-mode" "cash" " CASH " c6Cats c6Modes
    ⟨{ id := "cat-1", name := "Cash" }, by decide, by decide⟩
    ⟨{ id := "mode-1", name := "Cash" }, by decide, by decide⟩

/-- Witness for C5 at a concrete recomputation. -/
theorem C5_last_activity_witness :
    (cashbookDates c5Out.id c5Ts = [] → c5Out.lastActivity = none) ∧
    (cashbookDates c5Out.id c5Ts ≠ [] →
      ∃ m, c5Out.lastActivity = some m ∧ m ∈ cashbookDates c5Out.id c5Ts ∧
        ∀ d ∈ cashbookDates c5Out.id c5Ts, strLe d m = true) :=
  C5_last_activity c5Cbs c5Ts c5Out
    (by rw [c5_recalc_eval]; exact List.mem_singleton.mpr rfl)

theorem lookupA_good :
    ∀ {cache : List (String × String)} {y z : String},
      CacheGood cache → lookupA y cache = some z → isUuid z = true := by
  intro cache
  induction cache with
  | nil => intro y z _ h; cases h
  | cons p rest ih =>
    intro y z hgood h
    unfold lookupA at h
    by_cases hy : y = p.1
    · rw [if_pos hy] at h
      cases h
      exact hgood p (List.mem_cons_self p rest)
    · rw [if_neg hy] at h
      exact ih (fun q hq => hgood q (List.mem_cons_of_mem p hq)) h

theorem lookupA_keys_none :
    ∀ {cache : List (String × String)} {y : String},
      CacheKeys cache → isUuid y = true → lookupA y cache = none := by
  intro cache
  induction cache with
  | nil => intro y _ _; rfl
  | cons p rest ih =>
    intro y hkeys hy
    unfold lookupA
    by_cases hyp : y = p.1
    · exfalso
      have := hkeys p (List.mem_cons_self p rest)
      rw [← hyp, hy] at this
      cases this
    · rw [if_neg hyp]
      exact ih (fun q hq => hkeys q (List.mem_cons_of_mem p hq)) hy

theorem ensure_keep (g : ℕ → String) (v : String) (cache : List (String × String)) (k : ℕ)
    (h : isUuid v = true) : ensureUuidWithCache g v cache k = (v, cache, k) := by
  simp [ensureUuidWithCache, h]

theorem lookupA_ensure_mono (g : ℕ → String) (v y z : String)
    (cache : List (String × String)) (k : ℕ) (h : lookupA y cache = some z) :
    lookupA y (ensureUuidWithCache g v cache k).2.1 = some z := by
  cases hv : isUuid v with
  | true => simp [ensureUuidWithCache, hv, h]
  | false =>
    cases hl : lookupA v cache with
    | some w => simp [ensureUuidWithCache, hv, hl, h]
    | none =>
      have hyv : y ≠ v := by
        intro he
        rw [he, hl] at h
        cases h
      simp [ensureUuidWithCache, hv, hl, lookupA, hyv, h]

theorem lookupA_ensure_self (g : ℕ → String) (v : String) (cache : List (String × String))
    (k : ℕ) (hv : isUuid v = false) :
    lookupA v (ensureUuidWithCache g v cache k).2.1 =
      some (ensureUuidWithCache g v cache k).1 := by
  cases hl : lookupA v cache with
  | some w => simp [ensureUuidWithCache, hv, hl]
  | none => simp [ensureUuidWithCache, hv, hl, lookupA]

theorem ensure_uuid (g : ℕ → String) (hg : ∀ n, isUuid (g n) = true) (v : String)
    (cache : List (String × String)) (k : ℕ) (hgood : CacheGood cache) :
    isUuid (ensureUuidWithCache g v cache k).1 = true := by
  cases hv : isUuid v with
  | true => simp [ensureUuidWithCache, hv]
  | false =>
    cases hl : lookupA v cache with
    | some w =>
      have hw : isUuid w = true := lookupA_good hgood hl
      simp [ensureUuidWithCache, hv, hl, hw]
    | none => simp [ensureUuidWithCache, hv, hl, hg]

theorem cacheGood_ensure (g : ℕ → String) (hg : ∀ n, isUuid (g n) = true) (v : String)
    (cache : List (String × String)) (k : ℕ) (hgood : CacheGood cache) :
    CacheGood (ensureUuidWithCache g v cache k).2.1 := by
  cases hv : isUuid v with
  | true =>
    have hc : (ensureUuidWithCache g v cache k).2.1 = cache := by
      simp [ensureUuidWithCache, hv]
    rw [hc]
    exact hgood
  | false =>
    cases hl : lookupA v cache with
    | some w =>
      have hc : (ensureUuidWithCache g v cache k).2.1 = cache := by
        simp [ensureUuidWithCache, hv, hl]
      rw [hc]
      exact hgood
    | none =>
      have hc : (ensureUuidWithCache g v cache k).2.1 = (v, g k) :: cache := by
        simp [ensureUuidWithCache, hv, hl]
      rw [hc]
      intro p hp
      rcases List.mem_cons.mp hp with rfl | hp'
      · exact hg k
      · exact hgood p hp'

theorem cacheKeys_ensure (g : ℕ → String) (v : String) (cache : List (String × String))
    (k : ℕ) (hkeys : CacheKeys cache) :
    CacheKeys (ensureUuidWithCache g v cache k).2.1 := by
  cases hv : isUuid v with
  | true =>
    have hc : (ensureUuidWithCache g v cache k).2.1 = cache := by
      simp [ensureUuidWithCache, hv]
    rw [hc]
    exact hkeys
  | false =>
    cases hl : lookupA v cache with
    | some w =>
      have hc : (ensureUuidWithCache g v cache k).2.1 = cache := by
        simp [ensureUuidWithCache, hv, hl]
      rw [hc]
      exact hkeys
    | none =>
      have hc : (ensureUuidWithCache g v cache k).2.1 = (v, g k) :: cache := by
        simp [ensureUuidWithCache, hv, hl]
      rw [hc]
      intro p hp
      rcases List.mem_cons.mp hp with rfl | hp'
      · exact hv
      · exact hkeys p hp'

theorem lookupA_normRecords_mono {α : Type} (getId : α → String) (setId : α → String → α)
    (g : ℕ → String) :
    ∀ (l : List α) (cache : List (String × String)) (k : ℕ) {y z : String},
      lookupA y cache = some z →
      lookupA y (normRecords getId setId g l cache k).2.1 = some z := by
  intro l
  induction l with
  | nil => intro cache k y z h; exact h
  | cons a rest ih =>
    intro cache k y z h
    exact ih _ _ (lookupA_ensure_mono g (getId a) y z cache k h)

theorem cacheGood_normRecords {α : Type} (getId : α → String) (setId : α → String → α)
    (g : ℕ → String) (hg : ∀ n, isUuid (g n) = true) :
    ∀ (l : List α) (cache : List (String × String)) (k : ℕ),
      CacheGood cache → CacheGood (normRecords getId setId g l cache k).2.1 := by
  intro l
  induction l with
  | nil => intro cache k h; exact h
  | cons a rest ih =>
    intro cache k h
    exact ih _ _ (cacheGood_ensure g hg (getId a) cache k h)

theorem cacheKeys_normRecords {α : Type} (getId : α → String) (setId : α → String → α)
    (g : ℕ → String) :
    ∀ (l : List α) (cache : List (String × String)) (k : ℕ),
      CacheKeys cache → CacheKeys (normRecords getId setId g l cache k).2.1 := by
  intro l
  induction l with
  | nil => intro cache k h; exact h
  | cons a rest ih =>
    intro cache k h
    exact ih _ _ (cacheKeys_ensure g (getId a) cache k h)

theorem normRecords_get {α : Type} (getId : α → String) (setId : α → String → α)
    (hget : ∀ a i, getId (setId a i) = i) (g : ℕ → String) :
    ∀ (l : List α) (cache : List (String × String)) (k i : ℕ) {a : α},
      l[i]? = some a → isUuid (getId a) = false →
      ∃ b, (normRecords getId setId g l cache k).1[i]? = some b ∧
        lookupA (getId a) (normRecords getId setId g l cache k).2.1 = some (getId b) := by
  intro l
  induction l with
  | nil => intro cache k i a h _; simp at h
  | cons x rest ih =>
    intro cache k i a h hnc
    cases i with
    | zero =>
      simp only [List.getElem?_cons_zero, Option.some.injEq] at h
      subst h
      refine ⟨setId x (ensureUuidWithCache g (getId x) cache k).1,
        by simp only [normRecords, List.getElem?_cons_zero], ?_⟩
      rw [hget]
      exact lookupA_normRecords_mono getId setId g rest _ _
        (lookupA_ensure_self g (getId x) cache k hnc)
    | succ i =>
      simp only [List.getElem?_cons_succ] at h
      obtain ⟨b, hb1, hb2⟩ := ih (ensureUuidWithCache g (getId x) cache k).2.1
        (ensureUuidWithCache g (getId x) cache k).2.2 i h hnc
      exact ⟨b, by simpa only [normRecords, List.getElem?_cons_succ] using hb1, hb2⟩

theorem normRecords_keep {α : Type} (getId : α → String) (setId : α → String → α)
    (hkeep : ∀ a, setId a (getId a) = a) (g : ℕ → String) :
    ∀ (l : List α) (cache : List (String × String)) (k i : ℕ) {a : α},
      l[i]? = some a → isUuid (getId a) = true →
      (normRecords getId setId g l cache k).1[i]? = some a := by
  intro l
  induction l with
  | nil => intro cache k i a h _; simp at h
  | cons x rest ih =>
    intro cache k i a h hu
    cases i with
    | zero =>
      simp only [List.getElem?_cons_zero, Option.some.injEq] at h
      subst h
      show (setId x (ensureUuidWithCache g (getId x) cache k).1 :: _)[0]? = some x
      rw [ensure_keep g (getId x) cache k hu]
      simp [hkeep]
    | succ i =>
      simp only [List.getElem?_cons_succ] at h
      simpa only [normRecords, List.getElem?_cons_succ] using
        ih (ensureUuidWithCache g (getId x) cache k).2.1
          (ensureUuidWithCache g (getId x) cache k).2.2 i h hu

theorem normRecords_all_uuid {α : Type} (getId : α → String) (setId : α → String → α)
    (hget : ∀ a i, getId (setId a i) = i) (g : ℕ → String) (hg : ∀ n, isUuid (g n) = true) :
    ∀ (l : List α) (cache : List (String × String)) (k : ℕ), CacheGood cache →
      ∀ b ∈ (normRecords getId setId g l cache k).1, isUuid (getId b) = true := by
  intro l
  induction l with
  | nil => intro cache k _ b hb; simp [normRecords] at hb
  | cons x rest ih =>
    intro cache k hgood b hb
    rcases List.mem_cons.mp hb with rfl | hb'
    · rw [hget]
      exact ensure_uuid g hg (getId x) cache k hgood
    · exact ih _ _ (cacheGood_ensure g hg (getId x) cache k hgood) b hb'

theorem normRecords_id {α : Type} (getId : α → String) (setId : α → String → α)
    (hkeep : ∀ a, setId a (getId a) = a) (g : ℕ → String) :
    ∀ (l : List α) (k : ℕ), (∀ a ∈ l, isUuid (getId a) = true) →
      normRecords getId setId g l [] k = (l, [], k) := by
  intro l
  induction l with
  | nil => intro k _; rfl
  | cons x rest ih =>
    intro k h
    have hx := h x (List.mem_cons_self x rest)
    simp only [normRecords, ensure_keep g (getId x) [] k hx]
    rw [ih k fun a ha => h a (List.mem_cons_of_mem x ha)]
    simp [hkeep]

theorem normTx_cons_pos (g : ℕ → String) (u : Transaction) (rest : List Transaction)
    (cbC txC : List (String × String)) (k : ℕ) (next : String)
    (hnext : (lookupA u.cashbookId cbC).getD u.cashbookId = next)
    (hu : isUuid next = true) :
    normTransactions g (u :: rest) cbC txC k =
      ({ u with
          id := (ensureUuidWithCache g u.id txC k).1
          cashbookId := next } ::
        (normTransactions g rest cbC (ensureUuidWithCache g u.id txC k).2.1
          (ensureUuidWithCache g u.id txC k).2.2).1,
        (normTransactions g rest cbC (ensureUuidWithCache g u.id txC k).2.1
          (ensureUuidWithCache g u.id txC k).2.2).2) := by
  simp only [normTransactions, hnext]
  rw [if_pos hu]

theorem normTx_cons_neg (g : ℕ → String) (u : Transaction) (rest : List Transaction)
    (cbC txC : List (String × String)) (k : ℕ) (next : String)
    (hnext : (lookupA u.cashbookId cbC).getD u.cashbookId = next)
    (hu : isUuid next = false) :
    normTransactions g (u :: rest) cbC txC k =
      ({ u with
          id := (ensureUuidWithCache g u.id txC
            (ensureUuidWithCache g next cbC k).2.2).1
          cashbookId := (ensureUuidWithCache g next cbC k).1 } ::
        (normTransactions g rest (ensureUuidWithCache g next cbC k).2.1
          (ensureUuidWithCache g u.id txC (ensureUuidWithCache g next cbC k).2.2).2.1
          (ensureUuidWithCache g u.id txC (ensureUuidWithCache g next cbC k).2.2).2.2).1,
        (normTransactions g rest (ensureUuidWithCache g next cbC k).2.1
          (ensureUuidWithCache g u.id txC (ensureUuidWithCache g next cbC k).2.2).2.1
          (ensureUuidWithCache g u.id txC (ensureUuidWithCache g next cbC k).2.2).2.2).2) := by
  simp only [normTransactions, hnext]
  rw [if_neg (by simp [hu])]

theorem lookupA_normTx_mono (g : ℕ → String) :
    ∀ (l : List Transaction) (cbC txC : List (String × String)) (k : ℕ) {y z : String},
      lookupA y cbC = some z →
      lookupA y (normTransactions g l cbC txC k).2.1 = some z := by
  intro l
  induction l with
  | nil => intro cbC txC k y z h; exact h
  | cons u rest ih =>
    intro cbC txC k y z h
    by_cases hu : isUuid ((lookupA u.cashbookId cbC).getD u.cashbookId) = true
    · rw [normTx_cons_pos g u rest cbC txC k _ rfl hu]
      exact ih _ _ _ h
    · have hfu : isUuid ((lookupA u.cashbookId cbC).getD u.cashbookId) = false :=
        Bool.eq_false_iff.mpr hu
      rw [normTx_cons_neg g u rest cbC txC k _ rfl hfu]
      exact ih _ _ _ (lookupA_ensure_mono g _ y z cbC k h)

theorem cacheGood_normTx (g : ℕ → String) (hg : ∀ n, isUuid (g n) = true) :
    ∀ (l : List Transaction) (cbC txC : List (String × String)) (k : ℕ),
      CacheGood cbC → CacheGood (normTransactions g l cbC txC k).2.1 := by
  intro l
  induction l with
  | nil => intro cbC txC k h; exact h
  | cons u rest ih =>
    intro cbC txC k h
    by_cases hu : isUuid ((lookupA u.cashbookId cbC).getD u.cashbookId) = true
    · rw [normTx_cons_pos g u rest cbC txC k _ rfl hu]
      exact ih _ _ _ h
    · have hfu : isUuid ((lookupA u.cashbookId cbC).getD u.cashbookId) = false :=
        Bool.eq_false_iff.mpr hu
      rw [normTx_cons_neg g u rest cbC txC k _ rfl hfu]
      exact ih _ _ _ (cacheGood_ensure g hg _ cbC k h)

theorem cacheKeys_normTx (g : ℕ → String) :
    ∀ (l : List Transaction) (cbC txC : List (String × String)) (k : ℕ),
      CacheKeys cbC → CacheKeys (normTransactions g l cbC txC k).2.1 := by
  intro l
  induction l with
  | nil => intro cbC txC k h; exact h
  | cons u rest ih =>
    intro cbC txC k h
    by_cases hu : isUuid ((lookupA u.cashbookId cbC).getD u.cashbookId) = true
    · rw [normTx_cons_pos g u rest cbC txC k _ rfl hu]
      exact ih _ _ _ h
    · have hfu : isUuid ((lookupA u.cashbookId cbC).getD u.cashbookId) = false :=
        Bool.eq_false_iff.mpr hu
      rw [normTx_cons_neg g u rest cbC txC k _ rfl hfu]
      exact ih _ _ _ (cacheKeys_ensure g _ cbC k h)

theorem normTx_get_cid (g : ℕ → String) :
    ∀ (l : List Transaction) (cbC txC : List (String × String)) (k j : ℕ)
      {t : Transaction} {y : String},
      l[j]? = some t → lookupA t.cashbookId cbC = some y → isUuid y = true →
      ∃ t', (normTransactions g l cbC txC k).1[j]? = some t' ∧ t'.cashbookId = y := by
  intro l
  induction l with
  | nil => intro cbC txC k j t y h _ _; simp at h
  | cons u rest ih =>
    intro cbC txC k j t y h hl hy
    cases j with
    | zero =>
      simp only [List.getElem?_cons_zero, Option.some.injEq] at h
      subst h
      have hnext : (lookupA u.cashbookId cbC).getD u.cashbookId = y := by rw [hl]; rfl
      rw [normTx_cons_pos g u rest cbC txC k y hnext hy]
      refine ⟨{ u with id := (ensureUuidWithCache g u.id txC k).1, cashbookId := y }, ?_, rfl⟩
      dsimp only
      exact List.getElem?_cons_zero
    | succ j =>
      simp only [List.getElem?_cons_succ] at h
      by_cases hu : isUuid ((lookupA u.cashbookId cbC).getD u.cashbookId) = true
      · rw [normTx_cons_pos g u rest cbC txC k _ rfl hu]
        obtain ⟨t', h1, h2⟩ := ih cbC (ensureUuidWithCache g u.id txC k).2.1
          (ensureUuidWithCache g u.id txC k).2.2 j h hl hy
        exact ⟨t', by simpa only [List.getElem?_cons_succ] using h1, h2⟩
      · have hfu : isUuid ((lookupA u.cashbookId cbC).getD u.cashbookId) = false :=
          Bool.eq_false_iff.mpr hu
        rw [normTx_cons_neg g u rest cbC txC k _ rfl hfu]
        obtain ⟨t', h1, h2⟩ := ih (ensureUuidWithCache g _ cbC k).2.1
          (ensureUuidWithCache g u.id txC (ensureUuidWithCache g _ cbC k).2.2).2.1
          (ensureUuidWithCache g u.id txC (ensureUuidWithCache g _ cbC k).2.2).2.2 j h
          (lookupA_ensure_mono g _ _ y cbC k hl) hy
        exact ⟨t', by simpa only [List.getElem?_cons_succ] using h1, h2⟩

theorem normTx_all_uuid (g : ℕ → String) (hg : ∀ n, isUuid (g n) = true) :
    ∀ (l : List Transaction) (cbC txC : List (String × String)) (k : ℕ),
      CacheGood cbC → CacheGood txC →
      ∀ t' ∈ (normTransactions g l cbC txC k).1,
        isUuid t'.id = true ∧ isUuid t'.cashbookId = true := by
  intro l
  induction l with
  | nil => intro cbC txC k _ _ t' ht'; simp [normTransactions] at ht'
  | cons u rest ih =>
    intro cbC txC k hcb htx t' ht'
    by_cases hu : isUuid ((lookupA u.cashbookId cbC).getD u.cashbookId) = true
    · rw [normTx_cons_pos g u rest cbC txC k _ rfl hu] at ht'
      rcases List.mem_cons.mp ht' with rfl | ht''
      · exact ⟨ensure_uuid g hg u.id txC k htx, hu⟩
      · exact ih cbC _ _ hcb (cacheGood_ensure g hg u.id txC k htx) t' ht''
    · have hfu : isUuid ((lookupA u.cashbookId cbC).getD u.cashbookId) = false :=
        Bool.eq_false_iff.mpr hu
      rw [normTx_cons_neg g u rest cbC txC k _ rfl hfu] at ht'
      rcases List.mem_cons.mp ht' with rfl | ht''
      · exact ⟨ensure_uuid g hg u.id txC _ htx, ensure_uuid g hg _ cbC k hcb⟩
      · exact ih _ _ _ (cacheGood_ensure g hg _ cbC k hcb)
          (cacheGood_ensure g hg u.id txC _ htx) t' ht''

theorem normTx_id (g : ℕ → String) :
    ∀ (l : List Transaction) (k : ℕ),
      (∀ t ∈ l, isUuid t.id = true ∧ isUuid t.cashbookId = true) →
      normTransactions g l [] [] k = (l, [], [], k) := by
  intro l
  induction l with
  | nil => intro k _; rfl
  | cons u rest ih =>
    intro k h
    obtain ⟨hid, hcid⟩ := h u (List.mem_cons_self u rest)
    have hnext : (lookupA u.cashbookId []).getD u.cashbookId = u.cashbookId := rfl
    rw [normTx_cons_pos g u rest [] [] k u.cashbookId hnext hcid]
    rw [ensure_keep g u.id [] k hid]
    rw [ih k fun t ht => h t (List.mem_cons_of_mem u ht)]

theorem normTx_keep (g : ℕ → String) :
    ∀ (l : List Transaction) (cbC txC : List (String × String)) (k j : ℕ) {t : Transaction},
      l[j]? = some t → isUuid t.id = true → isUuid t.cashbookId = true → CacheKeys cbC →
      (normTransactions g l cbC txC k).1[j]? = some t := by
  intro l
  induction l with
  | nil => intro cbC txC k j t h _ _ _; simp at h
  | cons u rest ih =>
    intro cbC txC k j t h hid hcid hkeys
    cases j with
    | zero =>
      simp only [List.getElem?_cons_zero, Option.some.injEq] at h
      subst h
      have hnext : (lookupA u.cashbookId cbC).getD u.cashbookId = u.cashbookId := by
        rw [lookupA_keys_none hkeys hcid]
        rfl
      rw [normTx_cons_pos g u rest cbC txC k u.cashbookId hnext hcid]
      rw [ensure_keep g u.id txC k hid]
      dsimp only
      rw [List.getElem?_cons_zero]
    | succ j =>
      simp only [List.getElem?_cons_succ] at h
      by_cases hu : isUuid ((lookupA u.cashbookId cbC).getD u.cashbookId) = true
      · rw [normTx_cons_pos g u rest cbC txC k _ rfl hu]
        simpa only [List.getElem?_cons_succ] using
          ih cbC (ensureUuidWithCache g u.id txC k).2.1
            (ensureUuidWithCache g u.id txC k).2.2 j h hid hcid hkeys
      · have hfu : isUuid ((lookupA u.cashbookId cbC).getD u.cashbookId) = false :=
          Bool.eq_false_iff.mpr hu
        rw [normTx_cons_neg g u rest cbC txC k _ rfl hfu]
        simpa only [List.getElem?_cons_succ] using
          ih (ensureUuidWithCache g _ cbC k).2.1
            (ensureUuidWithCache g u.id txC (ensureUuidWithCache g _ cbC k).2.2).2.1
            (ensureUuidWithCache g u.id txC (ensureUuidWithCache g _ cbC k).2.2).2.2 j h hid
            hcid (cacheKeys_ensure g _ cbC k hkeys)

theorem cacheGood_nil : CacheGood [] := fun p hp => absurd hp (List.not_mem_nil p)

theorem cacheKeys_nil : CacheKeys [] := fun p hp => absurd hp (List.not_mem_nil p)

/-- C8 (amended).  Within one `normalizeStateForPersistence` pass, remap
consistency holds per id namespace: a cashbook id and a transaction's
`cashbookId` holding the same non-canonical value map to the same
generated canonical id (they share the cashbook cache), repeated
non-canonical cashbook ids map to the same generated id, and every
identifier already in canonical UUID shape is kept in all four
collections.  (A value repeated across different namespaces — e.g. a
cashbook id and a category id — may map to different generated ids, since
each namespace has its own cache; see the counterexample.) -/
theorem C8_remap_stability (g : ℕ → String) (hg : ∀ n, isUuid (g n) = true) (k : ℕ)
    (s : PersistedState) :
    (∀ (i j : ℕ) (cb : Cashbook) (t : Transaction),
      s.cashbooks[i]? = some cb → s.transactions[j]? = some t →
      t.cashbookId = cb.id → isUuid cb.id = false →
      ∃ (y : String) (cb' : Cashbook) (t' : Transaction), isUuid y = true ∧
        (normalizeStateForPersistence g k s).cashbooks[i]? = some cb' ∧ cb'.id = y ∧
        (normalizeStateForPersistence g k s).transactions[j]? = some t' ∧
        t'.cashbookId = y) ∧
    (∀ (i₁ i₂ : ℕ) (cb₁ cb₂ : Cashbook),
      s.cashbooks[i₁]? = some cb₁ → s.cashbooks[i₂]? = some cb₂ →
      cb₁.id = cb₂.id → isUuid cb₁.id = false →
      ∃ (y : String) (cb₁' cb₂' : Cashbook),
        (normalizeStateForPersistence g k s).cashbooks[i₁]? = some cb₁' ∧
        (normalizeStateForPersistence g k s).cashbooks[i₂]? = some cb₂' ∧
        cb₁'.id = y ∧ cb₂'.id = y) ∧
    (∀ (i : ℕ) (cb : Cashbook), s.cashbooks[i]? = some cb → isUuid cb.id = true →
      (normalizeStateForPersistence g k s).cashbooks[i]? = some cb) ∧
    (∀ (i : ℕ) (c : Category), s.categories[i]? = some c → isUuid c.id = true →
      (normalizeStateForPersistence g k s).categories[i]? = some c) ∧
    (∀ (i : ℕ) (m : PaymentMode), s.paymentModes[i]? = some m → isUuid m.id = true →
      (normalizeStateForPersistence g k s).paymentModes[i]? = some m) ∧
    (∀ (j : ℕ) (t : Transaction),
      s.transactions[j]? = some t → isUuid t.id = true → isUuid t.cashbookId = true →
      (normalizeStateForPersistence g k s).transactions[j]? = some t) := by
  have hcbGood : CacheGood
      (normRecords Cashbook.id (fun cb i => { cb with id := i }) g s.cashbooks [] k).2.1 :=
    cacheGood_normRecords Cashbook.id (fun cb i => { cb with id := i }) g hg s.cashbooks [] k
      cacheGood_nil
  have hcbKeys : CacheKeys
      (normRecords Cashbook.id (fun cb i => { cb with id := i }) g s.cashbooks [] k).2.1 :=
    cacheKeys_normRecords Cashbook.id (fun cb i => { cb with id := i }) g s.cashbooks [] k
      cacheKeys_nil
  refine ⟨?_, ?_, ?_, ?_, ?_, ?_⟩
  · intro i j cb t hcb htx href hnc
    obtain ⟨b, hb1, hb2⟩ := normRecords_get Cashbook.id (fun cb i => { cb with id := i })
      (fun _ _ => rfl) g s.cashbooks [] k i hcb hnc
    have hbuuid : isUuid b.id = true := lookupA_good hcbGood hb2
    have hlook : lookupA t.cashbookId
        (normRecords Cashbook.id (fun cb i => { cb with id := i }) g s.cashbooks [] k).2.1 =
        some b.id := by
      rw [href]
      exact hb2
    obtain ⟨t', ht1, ht2⟩ := normTx_get_cid g s.transactions
      (normRecords Cashbook.id (fun cb i => { cb with id := i }) g s.cashbooks [] k).2.1
      []
      (normRecords PaymentMode.id (fun m i => { m with id := i }) g s.paymentModes []
        (normRecords Category.id (fun c i => { c with id := i }) g s.categories []
          (normRecords Cashbook.id (fun cb i => { cb with id := i }) g s.cashbooks [] k).2.2).2.2).2.2
      j htx hlook hbuuid
    exact ⟨b.id, b, t', hbuuid, hb1, rfl, ht1, ht2⟩
  · intro i₁ i₂ cb₁ cb₂ hcb₁ hcb₂ heq hnc
    obtain ⟨b₁, hb₁1, hb₁2⟩ := normRecords_get Cashbook.id (fun cb i => { cb with id := i })
      (fun _ _ => rfl) g s.cashbooks [] k i₁ hcb₁ hnc
    obtain ⟨b₂, hb₂1, hb₂2⟩ := normRecords_get Cashbook.id (fun cb i => { cb with id := i })
      (fun _ _ => rfl) g s.cashbooks [] k i₂ hcb₂ (heq ▸ hnc)
    have hsame : b₁.id = b₂.id := by
      rw [heq] at hb₁2
      rw [hb₁2] at hb₂2
      exact (Option.some.injEq _ _ ▸ hb₂2 : _)
    exact ⟨b₁.id, b₁, b₂, hb₁1, hb₂1, rfl, hsame.symm⟩
  · intro i cb hcb hu
    exact normRecords_keep Cashbook.id (fun cb i => { cb with id := i }) (fun _ => rfl) g
      s.cashbooks [] k i hcb hu
  · intro i c hc hu
    exact normRecords_keep Category.id (fun c i => { c with id := i }) (fun _ => rfl) g
      s.categories []
      (normRecords Cashbook.id (fun cb i => { cb with id := i }) g s.cashbooks [] k).2.2 i hc hu
  · intro i m hm hu
    exact normRecords_keep PaymentMode.id (fun m i => { m with id := i }) (fun _ => rfl) g
      s.paymentModes []
      (normRecords Category.id (fun c i => { c with id := i }) g s.categories []
        (normRecords Cashbook.id (fun cb i => { cb with id := i }) g s.cashbooks [] k).2.2).2.2
      i hm hu
  · intro j t ht hid hcid
    exact normTx_keep g s.transactions
      (normRecords Cashbook.id (fun cb i => { cb with id := i }) g s.cashbooks [] k).2.1
      []
      (normRecords PaymentMode.id (fun m i => { m with id := i }) g s.paymentModes []
        (normRecords Category.id (fun c i => { c with id := i }) g s.categories []
          (normRecords Cashbook.id (fun cb i => { cb with id := i }) g s.cashbooks [] k).2.2).2.2).2.2
      j ht hid hcid hcbKeys

/-- Witness for C8 (amended): a non-canonical cashbook id `"legacy-1"`
referenced by a transaction is remapped consistently in both places. -/
theorem C8_remap_stability_witness :
    ∃ y cb' t', isUuid y = true ∧
      (normalizeStateForPersistence c10G 0 c8WPS).cashbooks[0]? = some cb' ∧ cb'.id = y ∧
      (normalizeStateForPersistence c10G 0 c8WPS).transactions[0]? = some t' ∧
      t'.cashbookId = y :=
  (C8_remap_stability c10G (fun _ => rfl) 0 c8WPS).1 0 0
    { id := "legacy-1", name := "Personal", balance := 2,
      lastActivity := some "2024-04-01T00:00:00Z" }
    c8WTx rfl rfl rfl (by decide)

/-- Counterexample for C8: the non-canonical value `"dup"` occurs both as
a cashbook id and as a category id; one normalization pass maps the two
occurrences to two different generated canonical ids, because the cashbook
and category caches are separate maps. -/
theorem C8_counterexample :
    isUuid "dup" = false ∧
    (normalizeStateForPersistence c8G 0 c8DupPS).cashbooks.map Cashbook.id = [uuidA] ∧
    (normalizeStateForPersistence c8G 0 c8DupPS).categories.map Category.id = [uuidB] ∧
    uuidA ≠ uuidB := by
  refine ⟨by decide, rfl, rfl, by decide⟩

/-- C10.  Normalization keeps canonical identifiers, and all identifiers it
produces are canonical (given that the generator emits canonical UUIDs),
so normalizing twice equals normalizing once. -/
theorem C10_normalize_idempotent (g g' : ℕ → String) (hg : ∀ n, isUuid (g n) = true)
    (k k' : ℕ) (s : PersistedState) :
    normalizeStateForPersistence g' k' (normalizeStateForPersistence g k s) =
      normalizeStateForPersistence g k s := by
  have hcbAll : ∀ cb ∈ (normalizeStateForPersistence g k s).cashbooks, isUuid cb.id = true :=
    fun cb hcb => normRecords_all_uuid Cashbook.id (fun cb i => { cb with id := i })
      (fun _ _ => rfl) g hg s.cashbooks [] k cacheGood_nil cb hcb
  have hcatAll : ∀ c ∈ (normalizeStateForPersistence g k s).categories, isUuid c.id = true :=
    fun c hc => normRecords_all_uuid Category.id (fun c i => { c with id := i })
      (fun _ _ => rfl) g hg s.categories []
      (normRecords Cashbook.id (fun cb i => { cb with id := i }) g s.cashbooks [] k).2.2
      cacheGood_nil c hc
  have hmodeAll : ∀ m ∈ (normalizeStateForPersistence g k s).paymentModes,
      isUuid m.id = true :=
    fun m hm => normRecords_all_uuid PaymentMode.id (fun m i => { m with id := i })
      (fun _ _ => rfl) g hg s.paymentModes []
      (normRecords Category.id (fun c i => { c with id := i }) g s.categories []
        (normRecords Cashbook.id (fun cb i => { cb with id := i }) g s.cashbooks [] k).2.2).2.2
      cacheGood_nil m hm
  have htxAll : ∀ t ∈ (normalizeStateForPersistence g k s).transactions,
      isUuid t.id = true ∧ isUuid t.cashbookId = true :=
    fun t ht => normTx_all_uuid g hg s.transactions
      (normRecords Cashbook.id (fun cb i => { cb with id := i }) g s.cashbooks [] k).2.1
      []
      (normRecords PaymentMode.id (fun m i => { m with id := i }) g s.paymentModes []
        (normRecords Category.id (fun c i => { c with id := i }) g s.categories []
          (normRecords Cashbook.id (fun cb i => { cb with id := i }) g s.cashbooks [] k).2.2).2.2).2.2
      (cacheGood_normRecords Cashbook.id (fun cb i => { cb with id := i }) g hg s.cashbooks
        [] k cacheGood_nil)
      cacheGood_nil t ht
  have hpc : (normalizeStateForPersistence g k s).primaryCurrency ≠ "" := by
    show (if s.primaryCurrency = "" then DEFAULT_PRIMARY_CURRENCY else s.primaryCurrency) ≠ ""
    by_cases h : s.primaryCurrency = ""
    · rw [if_pos h]
      decide
    · rw [if_neg h]
      exact h
  set r := normalizeStateForPersistence g k s with hr
  have h1 := normRecords_id Cashbook.id (fun cb i => { cb with id := i }) (fun _ => rfl) g'
    r.cashbooks k' hcbAll
  simp only [normalizeStateForPersistence]
  rw [h1]
  dsimp only
  have h2 := normRecords_id Category.id (fun c i => { c with id := i }) (fun _ => rfl) g'
    r.categories k' hcatAll
  rw [h2]
  dsimp only
  have h3 := normRecords_id PaymentMode.id (fun m i => { m with id := i }) (fun _ => rfl) g'
    r.paymentModes k' hmodeAll
  rw [h3]
  dsimp only
  have h4 := normTx_id g' r.transactions k' htxAll
  rw [h4]
  dsimp only
  rw [if_neg hpc]

/-- Witness for C10 at a concrete persisted state with a non-canonical
cashbook id and an empty primary currency. -/
theorem C10_normalize_idempotent_witness :
    normalizeStateForPersistence c10G 0 (normalizeStateForPersistence c10G 0 c10PS) =
      normalizeStateForPersistence c10G 0 c10PS :=
  C10_normalize_idempotent c10G c10G (fun _ => rfl) 0 0 c10PS
